import Mathlib

/-!
Verification of the skill-normalization, skill-matching and resume-parsing
core of the Ascend repository.  Python functions from
src/skills/skill_comparator.py, src/skills/skill_gap_analyzer.py and
src/enhanced_resume_parser.py are shallowly embedded as executable Lean
definitions (strings as lists of characters, Python floats as rationals,
Python dicts as association lists) and the spec's testable properties are
settled against them.
-/

namespace Ascend

/-! ### Python string primitives (ASCII model)

Python str.lower / str.strip / regex character classes are modelled on the
ASCII range, which covers every string the analysed code and data use. -/

/-- Whitespace characters recognised by Python's str.strip and the regex
class backslash-s, restricted to ASCII. -/
def pyIsWs (c : Char) : Bool :=
  c.toNat = 32 || c.toNat = 9 || c.toNat = 10 || c.toNat = 13 ||
  c.toNat = 12 || c.toNat = 11

/-- Membership in the regex class [A-Z]. -/
def isUpperAZ (c : Char) : Bool := 65 ≤ c.toNat && c.toNat ≤ 90

/-- Membership in the regex class [a-z]. -/
def isLowerAZ (c : Char) : Bool := 97 ≤ c.toNat && c.toNat ≤ 122

/-- Membership in the regex class [0-9]. -/
def isDigit09 (c : Char) : Bool := 48 ≤ c.toNat && c.toNat ≤ 57

/-- Python str.lower on one ASCII character. -/
def pyLowerChar (c : Char) : Char :=
  if isUpperAZ c then Char.ofNat (c.toNat + 32) else c

/-- Python str.lower. -/
def pyLower (cs : List Char) : List Char := cs.map pyLowerChar

/-- Python str.strip() with no arguments: drop whitespace at both ends. -/
def pyStripL (cs : List Char) : List Char :=
  ((cs.dropWhile pyIsWs).reverse.dropWhile pyIsWs).reverse

/-- Helper for re.sub(r'\s+', ' ', s): the flag records whether the
previous character was whitespace (and hence already emitted one space). -/
def collapseWsAux : Bool → List Char → List Char
  | _, [] => []
  | inWs, c :: rest =>
    if pyIsWs c then
      if inWs then collapseWsAux true rest
      else ' ' :: collapseWsAux true rest
    else c :: collapseWsAux false rest

/-- Embedding of re.sub(r'\s+', ' ', s): every maximal whitespace run
becomes a single space. -/
def collapseWs (cs : List Char) : List Char := collapseWsAux false cs

/-- Python str.strip on a String. -/
def pyStrip (s : String) : String := ⟨pyStripL s.data⟩

/-- Python substring test (needle in hay). -/
def strContains (needle hay : List Char) : Bool :=
  (List.range (hay.length + 1)).any (fun i => needle.isPrefixOf (hay.drop i))

/-- Python substring test on Strings. -/
def substrB (needle hay : String) : Bool := strContains needle.data hay.data

/-! ### SkillComparator.normalize_skill (skill_comparator.py lines 49-72) -/

/-- The SKILL_ALIASES table of SkillComparator. -/
def SKILL_ALIASES : List (String × String) := [
  ("js", "javascript"),
  ("ts", "typescript"),
  ("py", "python"),
  ("react.js", "react"),
  ("reactjs", "react"),
  ("vue.js", "vue"),
  ("node.js", "node"),
  ("nodejs", "node"),
  ("postgresql", "postgres"),
  ("mongo", "mongodb"),
  ("k8s", "kubernetes"),
  ("ci/cd", "cicd"),
  ("ml", "machine learning"),
  ("ai", "artificial intelligence"),
  ("nlp", "natural language processing"),
  ("aws", "amazon web services"),
  ("gcp", "google cloud platform")]

/-- Dictionary lookup in SKILL_ALIASES (step 3 of normalize_skill). -/
def aliasSub (cs : List Char) : List Char :=
  match SKILL_ALIASES.find? (fun p => p.1.data == cs) with
  | some p => p.2.data
  | none => cs

/-- Characters kept by re.sub(r'[^a-z0-9\s\+\#\.]', '', s). -/
def allowedChar (c : Char) : Bool :=
  isLowerAZ c || isDigit09 c || pyIsWs c ||
  c.toNat = 43 || c.toNat = 35 || c.toNat = 46

/-- The four normalization passes of SkillComparator.normalize_skill on a
character list: lowercase and strip, collapse whitespace, alias
substitution, strip characters outside [a-z0-9 space + # .]. -/
def normChars (cs : List Char) : List Char :=
  (aliasSub (collapseWs (pyStripL (pyLower cs)))).filter allowedChar

/-- Embedding of SkillComparator.normalize_skill. -/
def normalize_skill (s : String) : String := ⟨normChars s.data⟩

/-! ### Helper lemmas for idempotence -/

theorem map_id_of_forall_eq {α : Type} {f : α → α} :
    ∀ {l : List α}, (∀ a ∈ l, f a = a) → l.map f = l := by
  intro l
  induction l with
  | nil => intro _; rfl
  | cons a t ih =>
    intro h
    simp only [List.map_cons]
    rw [h a (by simp), ih (fun b hb => h b (by simp [hb]))]

theorem allowed_not_upper {c : Char} (h : allowedChar c = true) :
    isUpperAZ c = false := by
  simp only [allowedChar, Bool.or_eq_true, decide_eq_true_eq, isLowerAZ,
    isDigit09, pyIsWs, Bool.and_eq_true] at h
  simp only [isUpperAZ, Bool.and_eq_true, decide_eq_true_eq]
  by_contra hc
  simp only [Bool.not_eq_false, Bool.and_eq_true, decide_eq_true_eq] at hc
  omega

theorem pyLowerChar_fixed {c : Char} (h : allowedChar c = true) :
    pyLowerChar c = c := by
  unfold pyLowerChar
  rw [allowed_not_upper h]
  rfl

theorem mem_normChars_allowed {cs : List Char} {c : Char}
    (h : c ∈ normChars cs) : allowedChar c = true :=
  (List.mem_filter.mp h).2

theorem pyLower_normChars (cs : List Char) :
    pyLower (normChars cs) = normChars cs :=
  map_id_of_forall_eq (fun _ hc => pyLowerChar_fixed (mem_normChars_allowed hc))

theorem filter_normChars (cs : List Char) :
    (normChars cs).filter allowedChar = normChars cs :=
  List.filter_eq_self.mpr (fun _ hc => mem_normChars_allowed hc)

/-- Claim C1 (amended): normalize_skill is idempotent on every input whose
normalized form (a) is unchanged by str.strip, (b) is unchanged by
whitespace collapsing, and (c) is not itself a key of the alias table.  The
unrestricted claim is refuted by C1_idempotence_cex below. -/
theorem C1_normalize_idempotent_on_stable (x : String)
    (h1 : pyStripL (normalize_skill x).data = (normalize_skill x).data)
    (h2 : collapseWs (normalize_skill x).data = (normalize_skill x).data)
    (h3 : SKILL_ALIASES.find? (fun p => p.1.data == (normalize_skill x).data)
          = none) :
    normalize_skill (normalize_skill x) = normalize_skill x := by
  show (⟨normChars (normalize_skill x).data⟩ : String) = normalize_skill x
  have hy : normChars (normalize_skill x).data = (normalize_skill x).data := by
    unfold normChars
    rw [show pyLower (normalize_skill x).data = (normalize_skill x).data from
      pyLower_normChars x.data]
    rw [h1, h2]
    unfold aliasSub
    rw [h3]
    exact filter_normChars x.data
  rw [hy]

/-- Witness for C1: the amended idempotence theorem applied at the concrete
input "Python", whose normalized form "python" satisfies all three
stability hypotheses. -/
theorem C1_normalize_idempotent_witness :
    normalize_skill (normalize_skill "Python") = normalize_skill "Python" :=
  C1_normalize_idempotent_on_stable "Python" (by decide) (by decide) (by decide)

/-- Counterexample to claim C1 as stated: the character-stripping pass can
create an alias key, so a second application of normalize_skill is not a
no-op.  Here normalize_skill "a!i" = "ai", and "ai" is an alias key mapped
to "artificial intelligence". -/
theorem C1_idempotence_cex :
    normalize_skill "a!i" = "ai" ∧
    normalize_skill (normalize_skill "a!i") = "artificial intelligence" ∧
    normalize_skill (normalize_skill "a!i") ≠ normalize_skill "a!i" := by
  refine ⟨by decide, by decide, by decide⟩

/-! ### difflib.SequenceMatcher (used by skills_match)

Embedding of SequenceMatcher(None, a, b).ratio() for short strings.  With
junk disabled and strings below the autojunk threshold, find_longest_match
is exactly the j2len dynamic program (the two post-extension loops of the
CPython source can never extend the maximal block found by the dp), and
ratio() is 2*M/(len(a)+len(b)) where M sums the sizes of the recursively
collected matching blocks. -/

/-- Positions j in [blo, bhi) with b[j] = c: the b2j lookup of
SequenceMatcher restricted to the current window, in ascending order. -/
def matchPositions (b : List Char) (blo bhi : Nat) (c : Char) : List Nat :=
  (List.range' blo (bhi - blo)).filter (fun j => b.getD j ' ' == c)

/-- Lookup in the j2len dictionary with default 0. -/
def j2lenGet (m : List (Nat × Nat)) (j : Nat) : Nat :=
  match m.find? (fun p => p.1 == j) with
  | some p => p.2
  | none => 0

/-- One outer-loop iteration (row i) of find_longest_match: returns the new
j2len dictionary and the updated (besti, bestj, bestsize). -/
def flmRow (a b : List Char) (blo bhi i : Nat)
    (j2len : List (Nat × Nat)) (best : Nat × Nat × Nat) :
    List (Nat × Nat) × (Nat × Nat × Nat) :=
  (matchPositions b blo bhi (a.getD i ' ')).foldl
    (fun st j =>
      let k := (if j = 0 then 0 else j2lenGet j2len (j - 1)) + 1
      let best2 := if k > st.2.2.2 then (i + 1 - k, j + 1 - k, k) else st.2
      ((j, k) :: st.1, best2))
    ([], best)

/-- Embedding of SequenceMatcher.find_longest_match on the window
[alo, ahi) x [blo, bhi): the longest matching block, ties broken by lowest
start in a, then lowest start in b. -/
def findLongestMatch (a b : List Char) (alo ahi blo bhi : Nat) :
    Nat × Nat × Nat :=
  ((List.range' alo (ahi - alo)).foldl
    (fun st i => flmRow a b blo bhi i st.1 st.2)
    ([], (alo, blo, 0))).2

/-- Recursive collection of matching blocks, returning the total matched
size.  The fuel argument strictly dominates the window span, which shrinks
at every recursive call. -/
def matchTotalAux (a b : List Char) :
    Nat → Nat → Nat → Nat → Nat → Nat
  | 0, _, _, _, _ => 0
  | fuel + 1, alo, ahi, blo, bhi =>
    let r := findLongestMatch a b alo ahi blo bhi
    if r.2.2 = 0 then 0
    else
      matchTotalAux a b fuel alo r.1 blo r.2.1 + r.2.2 +
      matchTotalAux a b fuel (r.1 + r.2.2) ahi (r.2.1 + r.2.2) bhi

/-- Total size of the matching blocks of SequenceMatcher(None, a, b). -/
def matchTotal (a b : List Char) : Nat :=
  matchTotalAux a b (a.length + b.length + 1) 0 a.length 0 b.length

/-- Embedding of SequenceMatcher(None, sa, sb).ratio(), with Python floats
modelled as rationals. -/
def smRatio (sa sb : String) : ℚ :=
  if sa.data.length + sb.data.length = 0 then 1
  else (2 * (matchTotal sa.data sb.data : ℚ)) /
    ((sa.data.length + sb.data.length : Nat) : ℚ)

/-! ### SkillComparator.skills_match (skill_comparator.py lines 74-102) -/

/-- The similarity_threshold fixed in SkillComparator.__init__. -/
def similarity_threshold : ℚ := 17 / 20

/-- The float comparison `similarity >= self.similarity_threshold` carried
out as the exact equivalent integer inequality
17 * (len a + len b) <= 40 * matches (see ratioGeThreshold_iff). -/
def ratioGeThreshold (sa sb : String) : Bool :=
  if sa.data.length + sb.data.length = 0 then true
  else decide (17 * (sa.data.length + sb.data.length) ≤
    40 * matchTotal sa.data sb.data)

/-- The integer threshold test agrees with the rational one: 0.85 <= 2M/L
exactly when 17L <= 40M. -/
theorem ratioGeThreshold_iff (sa sb : String) :
    ratioGeThreshold sa sb = true ↔ similarity_threshold ≤ smRatio sa sb := by
  unfold ratioGeThreshold smRatio similarity_threshold
  by_cases h : sa.data.length + sb.data.length = 0
  · rw [if_pos h, if_pos h]
    constructor
    · intro _; norm_num
    · intro _; rfl
  · rw [if_neg h, if_neg h]
    have hL : (0:ℚ) < ((sa.data.length + sb.data.length : Nat) : ℚ) := by
      have := Nat.pos_of_ne_zero h
      exact_mod_cast this
    rw [div_le_div_iff₀ (by norm_num) hL]
    simp only [decide_eq_true_eq]
    have hcast : (17 * (sa.data.length + sb.data.length) ≤
        40 * matchTotal sa.data sb.data) ↔
        ((17:ℚ) * ((sa.data.length + sb.data.length : Nat) : ℚ) ≤
          2 * (matchTotal sa.data sb.data : ℚ) * 20) := by
      rw [show (2:ℚ) * (matchTotal sa.data sb.data : ℚ) * 20 =
        ((40 * matchTotal sa.data sb.data : Nat) : ℚ) by push_cast; ring]
      rw [show (17:ℚ) * ((sa.data.length + sb.data.length : Nat) : ℚ) =
        ((17 * (sa.data.length + sb.data.length) : Nat) : ℚ) by
          push_cast; ring]
      exact Nat.cast_le.symm
    exact hcast

/-- Embedding of SkillComparator.skills_match: exact normalized equality,
or sequence-similarity ratio at least 0.85, or mutual substring with both
normalized lengths above 3. -/
def skills_match (skill1 skill2 : String) : Bool :=
  if normalize_skill skill1 = normalize_skill skill2 then true
  else if ratioGeThreshold (normalize_skill skill1) (normalize_skill skill2)
  then true
  else if (substrB (normalize_skill skill1) (normalize_skill skill2) ||
           substrB (normalize_skill skill2) (normalize_skill skill1)) &&
          decide ((normalize_skill skill1).data.length > 3) &&
          decide ((normalize_skill skill2).data.length > 3) then true
  else false

theorem bool_and_or_comm3 (x y a b : Bool) :
    ((x || y) && a && b) = ((y || x) && b && a) := by
  cases x <;> cases y <;> cases a <;> cases b <;> rfl

/-- Claim C2 (amended): skills_match is symmetric whenever the sequence
similarity ratio of the two normalized forms clears the 0.85 threshold in
one argument order exactly when it does in the other; the ratio itself is
order dependent (see C2_symmetry_cex), so unrestricted symmetry fails. -/
theorem C2_skills_match_symm_of_ratio_stable (a b : String)
    (h : similarity_threshold ≤ smRatio (normalize_skill a) (normalize_skill b)
         ↔
         similarity_threshold ≤ smRatio (normalize_skill b) (normalize_skill a)) :
    skills_match a b = skills_match b a := by
  have hrg : ratioGeThreshold (normalize_skill a) (normalize_skill b) =
      ratioGeThreshold (normalize_skill b) (normalize_skill a) := by
    have hiff := ((ratioGeThreshold_iff (normalize_skill a)
      (normalize_skill b)).trans h).trans
      (ratioGeThreshold_iff (normalize_skill b) (normalize_skill a)).symm
    cases hx : ratioGeThreshold (normalize_skill a) (normalize_skill b) <;>
      cases hy : ratioGeThreshold (normalize_skill b) (normalize_skill a)
    · rfl
    · exact absurd (hiff.mpr hy) (by simp [hx])
    · exact absurd (hiff.mp hx) (by simp [hy])
    · rfl
  unfold skills_match
  by_cases heq : normalize_skill a = normalize_skill b
  · rw [if_pos heq, if_pos heq.symm]
  · rw [if_neg heq,
      if_neg (fun hh : normalize_skill b = normalize_skill a => heq hh.symm)]
    rw [hrg]
    by_cases hr : ratioGeThreshold (normalize_skill b) (normalize_skill a)
      = true
    · rw [if_pos hr, if_pos hr]
    · rw [if_neg hr, if_neg hr]
      rw [bool_and_or_comm3]

/-- Witness for C2: the amended symmetry theorem applied to "Py" and
"python", which normalize to the same string, so the ratio hypothesis holds
by computation. -/
theorem C2_skills_match_symm_witness :
    skills_match "Py" "python" = skills_match "python" "Py" :=
  C2_skills_match_symm_of_ratio_stable "Py" "python" (by
    have h : normalize_skill "Py" = normalize_skill "python" := by decide
    rw [h])

set_option maxRecDepth 40000 in
/-- Counterexample to claim C2 as stated: difflib's greedy tie-breaking
makes the similarity ratio order dependent; for these two strings the
matched total is 6 of 14 characters in one order (ratio 6/7, above 0.85)
and 4 of 14 in the other (ratio 4/7), so skills_match is asymmetric. -/
theorem C2_symmetry_cex :
    skills_match "aaaaaba" "aabaaab" = true ∧
    skills_match "aabaaab" "aaaaaba" = false := by
  refine ⟨by decide, by decide⟩

/-! ### SkillComparator.find_matching_skills and calculate_match_percentage
(skill_comparator.py lines 104-164) -/

/-- Embedding of list(dict.fromkeys(x)): remove duplicates keeping the
first occurrence of each element. -/
def dedupKeepFirst (l : List String) : List String :=
  l.foldl (fun acc s => if s ∈ acc then acc else acc ++ [s]) []

/-- One job-skill iteration of find_matching_skills: the first resume skill
whose (already normalized) form matches the normalized job skill is added
to matched with its original resume casing; otherwise the job skill is
added to missing with its original job casing. -/
def fmsStep (pairs : List (String × String)) (acc : List String × List String)
    (js : String) : List String × List String :=
  match pairs.find? (fun rp => skills_match (normalize_skill js) rp.2) with
  | some rp => (acc.1 ++ [rp.1], acc.2)
  | none => (acc.1, acc.2 ++ [js])

/-- Embedding of SkillComparator.find_matching_skills. -/
def find_matching_skills (resume_skills job_skills : List String) :
    List String × List String :=
  let mm := job_skills.foldl
    (fmsStep (resume_skills.zip (resume_skills.map normalize_skill))) ([], [])
  (dedupKeepFirst mm.1, dedupKeepFirst mm.2)

/-- Embedding of SkillComparator.calculate_match_percentage. -/
def calculate_match_percentage (matched_skills : List String)
    (total_required_skills : Nat) : ℚ :=
  if total_required_skills = 0 then 100
  else min ((matched_skills.length : ℚ) / total_required_skills * 100) 100

/-- Round half to even on rationals, modelling Python's round applied to an
exact value. -/
def roundHalfEven (q : ℚ) : ℤ :=
  if q - Int.floor q < 1/2 then Int.floor q
  else if (1:ℚ)/2 < q - Int.floor q then Int.floor q + 1
  else if Int.floor q % 2 = 0 then Int.floor q else Int.floor q + 1

/-- Embedding of Python round(x, 1). -/
def pyRound1 (q : ℚ) : ℚ := (roundHalfEven (q * 10) : ℚ) / 10

/-- Claim C3: on resume skills [Python, SQL, Git] and job skills
[Python, AWS, git], find_matching_skills matches Python and Git (resume
casing), misses AWS (job casing), and the match percentage over 3 required
skills is 200/3, which rounds to 66.7. -/
theorem C3_concrete_example :
    find_matching_skills ["Python", "SQL", "Git"] ["Python", "AWS", "git"] =
      (["Python", "Git"], ["AWS"]) ∧
    calculate_match_percentage ["Python", "Git"] 3 = 200 / 3 ∧
    pyRound1 (calculate_match_percentage ["Python", "Git"] 3) = 667 / 10 := by
  have h1 : calculate_match_percentage ["Python", "Git"] 3 = 200 / 3 := by
    unfold calculate_match_percentage
    rw [if_neg (by norm_num)]
    simp only [List.length_cons, List.length_nil]
    rw [min_eq_left (by push_cast; norm_num)]
    push_cast
    norm_num
  have hfloor : ⌊(200 / 3 : ℚ) * 10⌋ = (666 : ℤ) := by
    rw [Int.floor_eq_iff]
    constructor <;> norm_num
  refine ⟨by decide, h1, ?_⟩
  rw [h1]
  unfold pyRound1 roundHalfEven
  rw [hfloor]
  norm_num

/-! ### Claim C4: matched and missing are disjoint under normalization -/

theorem dedup_foldl_mem (l : List String) :
    ∀ (acc : List String) (s : String),
      (s ∈ l.foldl (fun acc s => if s ∈ acc then acc else acc ++ [s]) acc) ↔
      (s ∈ acc ∨ s ∈ l) := by
  induction l with
  | nil => intro acc s; simp
  | cons x t ih =>
    intro acc s
    rw [List.foldl_cons, ih]
    by_cases hx : x ∈ acc
    · rw [if_pos hx]
      constructor
      · rintro (h | h)
        · exact Or.inl h
        · exact Or.inr (List.mem_cons_of_mem _ h)
      · rintro (h | h)
        · exact Or.inl h
        · rcases List.mem_cons.mp h with h | h
          · exact Or.inl (h ▸ hx)
          · exact Or.inr h
    · rw [if_neg hx]
      simp only [List.mem_append, List.mem_cons, List.mem_singleton]
      tauto

theorem mem_dedupKeepFirst {l : List String} {s : String} :
    s ∈ dedupKeepFirst l ↔ s ∈ l := by
  unfold dedupKeepFirst
  rw [dedup_foldl_mem]
  simp

theorem skills_match_refl (w : String) : skills_match w w = true := by
  unfold skills_match
  rw [if_pos rfl]

theorem mem_zip_self (resume : List String) (x : String) (hx : x ∈ resume) :
    (x, normalize_skill x) ∈ resume.zip (resume.map normalize_skill) := by
  induction resume with
  | nil => cases hx
  | cons a t ih =>
    rcases List.mem_cons.mp hx with h | h
    · subst h
      exact List.mem_cons_self _ _
    · exact List.mem_cons_of_mem _ (ih h)

/-- Invariant carried through the job-skill fold: matched entries come from
the resume list, and missing entries match no resume pair. -/
def fmsInv (resume : List String) (pairs : List (String × String))
    (st : List String × List String) : Prop :=
  (∀ x ∈ st.1, x ∈ resume) ∧
  (∀ y ∈ st.2, ∀ rp ∈ pairs,
    skills_match (normalize_skill y) rp.2 = false)

theorem fmsStep_inv (resume : List String) (pairs : List (String × String))
    (hp : ∀ rp ∈ pairs, rp.1 ∈ resume)
    (st : List String × List String) (js : String)
    (h : fmsInv resume pairs st) : fmsInv resume pairs (fmsStep pairs st js) := by
  unfold fmsStep
  cases hfind : pairs.find? (fun rp => skills_match (normalize_skill js) rp.2)
    with
  | some rp =>
    refine ⟨?_, h.2⟩
    intro x hx
    rcases List.mem_append.mp hx with hx1 | hx1
    · exact h.1 x hx1
    · rw [List.mem_singleton.mp hx1]
      exact hp rp (List.mem_of_find?_eq_some hfind)
  | none =>
    refine ⟨h.1, ?_⟩
    intro y hy rp hrp
    rcases List.mem_append.mp hy with hy1 | hy1
    · exact h.2 y hy1 rp hrp
    · rw [List.mem_singleton.mp hy1]
      have := List.find?_eq_none.mp hfind rp hrp
      simpa using this

theorem fms_foldl_inv (resume : List String) (pairs : List (String × String))
    (hp : ∀ rp ∈ pairs, rp.1 ∈ resume) (job : List String) :
    ∀ st, fmsInv resume pairs st →
      fmsInv resume pairs (job.foldl (fmsStep pairs) st) := by
  induction job with
  | nil => intro st h; exact h
  | cons j t ih =>
    intro st h
    rw [List.foldl_cons]
    exact ih _ (fmsStep_inv resume pairs hp st j h)

/-- Claim C4: no matched skill shares a normalized form with any missing
skill. -/
theorem C4_matched_missing_disjoint (resume_skills job_skills : List String)
    (x y : String)
    (hx : x ∈ (find_matching_skills resume_skills job_skills).1)
    (hy : y ∈ (find_matching_skills resume_skills job_skills).2) :
    normalize_skill x ≠ normalize_skill y := by
  intro heq
  unfold find_matching_skills at hx hy
  simp only at hx hy
  rw [mem_dedupKeepFirst] at hx hy
  have hp : ∀ rp ∈ resume_skills.zip (resume_skills.map normalize_skill),
      rp.1 ∈ resume_skills := fun rp hrp => (List.mem_zip hrp).1
  have hinv := fms_foldl_inv resume_skills
    (resume_skills.zip (resume_skills.map normalize_skill)) hp job_skills
    ([], []) ⟨fun a ha => (List.not_mem_nil a ha).elim,
      fun y hy => (List.not_mem_nil y hy).elim⟩
  have hxres : x ∈ resume_skills := hinv.1 x hx
  have hnm := hinv.2 y hy (x, normalize_skill x)
    (mem_zip_self resume_skills x hxres)
  rw [← heq] at hnm
  rw [skills_match_refl] at hnm
  cases hnm

/-- Witness for C4: the disjointness theorem applied to the concrete lists
of the C3 example, where "Python" is matched and "AWS" is missing. -/
theorem C4_matched_missing_disjoint_witness :
    normalize_skill "Python" ≠ normalize_skill "AWS" :=
  C4_matched_missing_disjoint ["Python", "SQL", "Git"] ["Python", "AWS", "git"]
    "Python" "AWS" (by decide) (by decide)

/-! ### Claim C5: properties of calculate_match_percentage -/

/-- Claim C5: the match percentage is monotone non-decreasing in the number
of matched skills, never exceeds 100, and is exactly 100 when the required
count is 0. -/
theorem C5_match_percentage_props (l1 l2 : List String) (t : Nat)
    (hlen : l1.length ≤ l2.length) :
    calculate_match_percentage l1 t ≤ calculate_match_percentage l2 t ∧
    calculate_match_percentage l1 t ≤ 100 ∧
    calculate_match_percentage l1 0 = 100 := by
  refine ⟨?_, ?_, by unfold calculate_match_percentage; rw [if_pos rfl]⟩
  · unfold calculate_match_percentage
    by_cases ht : t = 0
    · rw [if_pos ht, if_pos ht]
    · rw [if_neg ht, if_neg ht]
      have hc : (l1.length : ℚ) ≤ (l2.length : ℚ) := Nat.cast_le.mpr hlen
      have ht0 : (0:ℚ) < (t : ℚ) := by exact_mod_cast Nat.pos_of_ne_zero ht
      refine min_le_min ?_ le_rfl
      exact mul_le_mul_of_nonneg_right ((div_le_div_right ht0).mpr hc)
        (by norm_num)
  · unfold calculate_match_percentage
    by_cases ht : t = 0
    · rw [if_pos ht]
    · rw [if_neg ht]
      exact min_le_right _ _

/-- Witness for C5: the percentage properties applied to concrete lists of
one and two matched skills with 3 required skills. -/
theorem C5_match_percentage_witness :
    calculate_match_percentage ["SQL"] 3 ≤
      calculate_match_percentage ["SQL", "Git"] 3 ∧
    calculate_match_percentage ["SQL"] 3 ≤ 100 ∧
    calculate_match_percentage ["SQL"] 0 = 100 :=
  C5_match_percentage_props ["SQL"] ["SQL", "Git"] 3 (by decide)

/-! ### Data model (src/state.py)

Python floats are modelled as rationals throughout; optional fields as
Option String. -/

/-- Embedding of the SkillGap model. -/
structure SkillGap where
  skill_name : String
  category : String
  found_in_jobs_count : Nat
  priority : String
  learning_resources : List String
  estimated_learning_time : String
deriving DecidableEq

/-- Embedding of the RoleSkillAnalysis model. -/
structure RoleSkillAnalysis where
  job_role : String
  jobs_analyzed : Nat
  matched_skills : List String
  missing_skills : List SkillGap
  emerging_skills : List String
  match_percentage : ℚ
  skill_coverage_score : ℚ
  top_skills_to_learn : List String
  estimated_readiness : String
deriving DecidableEq

/-- Embedding of the JobPosting model. -/
structure JobPosting where
  title : String
  company : String
  location : String
  description : String
  required_skills : List String
  url : Option String
  salary : Option String
  posted_date : Option String
  source : String
deriving DecidableEq

/-- Embedding of the SkillGapAnalysis model. -/
structure SkillGapAnalysis where
  role_analyses : List RoleSkillAnalysis
  common_gaps : List String
  quick_wins : List String
  long_term_goals : List String
  niche_skills : List String
  trending_skills : List String
  declining_skills : List String
  immediate_actions : List String
  one_month_plan : List String
  three_month_plan : List String
  six_month_plan : List String
  overall_market_readiness : ℚ
  total_jobs_analyzed : Nat
  analysis_date : String

/-! ### Remaining SkillComparator methods (skill_comparator.py 166-395) -/

/-- Counter / dict lookup with default 0. -/
def freqGet (freq : List (String × Nat)) (k : String) : Nat :=
  match freq.find? (fun p => p.1 == k) with
  | some p => p.2
  | none => 0

/-- Counter increment: an existing key keeps its insertion position, a new
key is appended, mirroring Python dict ordering. -/
def counterAdd (freq : List (String × Nat)) (k : String) (n : Nat) :
    List (String × Nat) :=
  if freq.any (fun p => p.1 == k) then
    freq.map (fun p => if p.1 == k then (p.1, p.2 + n) else p)
  else freq ++ [(k, n)]

/-- Counter over normalized skills in first-occurrence order. -/
def buildCounter (skills : List String) : List (String × Nat) :=
  skills.foldl (fun acc s => counterAdd acc (normalize_skill s) 1) []

/-- Counter.most_common(n): stable sort by count descending (CPython's
nlargest breaks ties by insertion order, like a stable reverse sort), then
take n. -/
def mostCommon (freq : List (String × Nat)) (n : Nat) : List (String × Nat) :=
  (freq.mergeSort (fun x y => decide (y.2 ≤ x.2))).take n

/-- Embedding of SkillComparator.prioritize_missing_skills: stable sort by
frequency percentage descending of (skill, priority, freq_pct) triples. -/
def prioritize_missing_skills (missing_skills : List String)
    (skill_frequency : List (String × Nat)) (total_jobs : Nat) :
    List (String × String × ℚ) :=
  (missing_skills.map (fun skill =>
    let freq := freqGet skill_frequency (normalize_skill skill)
    let freq_pct : ℚ := if 0 < total_jobs then (freq : ℚ) / total_jobs * 100
      else 0
    (skill,
      (if (60:ℚ) ≤ freq_pct then "high"
       else if (30:ℚ) ≤ freq_pct then "medium" else "low"),
      freq_pct))).mergeSort (fun x y => decide (y.2.2 ≤ x.2.2))

/-- The tool_keywords list of identify_quick_wins. -/
def tool_keywords : List String :=
  ["git", "jira", "docker", "jenkins", "postman",
   "figma", "slack", "confluence", "tableau", "excel",
   "ci/cd", "agile", "scrum"]

/-- Embedding of SkillComparator.identify_quick_wins. -/
def identify_quick_wins (missing_skills : List String)
    (skill_frequency : List (String × Nat)) : List String :=
  missing_skills.filter (fun skill =>
    decide (3 ≤ freqGet skill_frequency (normalize_skill skill)) &&
    tool_keywords.any (fun kw => substrB kw (normalize_skill skill)))

/-- The complex_keywords list of identify_long_term_goals. -/
def complex_keywords : List String :=
  ["java", "c++", "scala", "rust", "go", "ruby",
   "spring", "django", "angular", "vue",
   "kubernetes", "terraform", "aws", "azure", "gcp",
   "machine learning", "deep learning", "data science",
   "microservices", "distributed systems"]

/-- Embedding of SkillComparator.identify_long_term_goals (the frequency
argument is unused, as in the source). -/
def identify_long_term_goals (missing_skills : List String)
    (_skill_frequency : List (String × Nat)) : List String :=
  missing_skills.filter (fun skill =>
    complex_keywords.any (fun kw => substrB kw (normalize_skill skill)))

/-- Embedding of SkillComparator.calculate_skill_coverage_score. -/
def calculate_skill_coverage_score (match_percentage : ℚ)
    (resume_skill_count : Nat) (avg_job_skill_count : ℚ) : ℚ :=
  let base_score := match_percentage / 100 * 7
  let breadth_ratio := if 0 < avg_job_skill_count then
    min ((resume_skill_count : ℚ) / avg_job_skill_count) (3/2) else 1
  let excellence_bonus : ℚ := if (90:ℚ) ≤ match_percentage then 1 else 0
  min (pyRound1 (base_score + breadth_ratio * 2 + excellence_bonus)) 10

/-- Embedding of SkillComparator.estimate_learning_time. -/
def estimate_learning_time (skill priority : String) : String :=
  if ["git", "jira", "docker", "agile", "scrum"].any
      (fun kw => substrB kw (normalize_skill skill)) then "1-2 weeks"
  else if ["react", "vue", "angular", "django", "flask"].any
      (fun kw => substrB kw (normalize_skill skill)) then "1-2 months"
  else if ["java", "python", "javascript", "c++", "go"].any
      (fun kw => substrB kw (normalize_skill skill)) then "2-4 months"
  else if ["kubernetes", "aws", "machine learning", "deep learning"].any
      (fun kw => substrB kw (normalize_skill skill)) then "3-6 months"
  else if priority = "high" then "2-3 months"
  else if priority = "medium" then "1-2 months"
  else "2-4 weeks"

/-- The outdated_keywords list of analyze_skill_trends. -/
def outdated_keywords : List String :=
  ["jquery", "flash", "silverlight", "visual basic", "perl",
   "xml", "soap", "jsp", "struts"]

/-- Embedding of SkillComparator.analyze_skill_trends. -/
def analyze_skill_trends (all_job_skills resume_skills : List String) :
    List String × List String :=
  let skill_counter := buildCounter all_job_skills
  let resume_skills_norm := resume_skills.map normalize_skill
  let trending := ((mostCommon skill_counter 10).filter (fun p =>
      decide (5 ≤ p.2) && !(resume_skills_norm.contains p.1))).map (fun p =>
      match all_job_skills.find? (fun s => normalize_skill s == p.1) with
      | some s => s
      | none => p.1)
  let declining := resume_skills.filter (fun skill =>
      outdated_keywords.contains (normalize_skill skill) ||
      decide (freqGet skill_counter (normalize_skill skill) = 0))
  (trending.take 5, declining.take 5)

/-! ### SkillGapAnalyzer (skill_gap_analyzer.py)

The injected SkillExtractor dependency is represented by two function
parameters: extract (extract_skills) and categorize (categorize_skill),
mirroring the constructor injection of the Python class. -/

/-- Embedding of SkillGapAnalyzer._extract_job_skills: populate
required_skills from the description only when it is empty.  The in-place
mutation of the Python loop becomes a returned list. -/
def extract_job_skills (extract : String → List String)
    (job_postings : List JobPosting) : List JobPosting :=
  job_postings.map (fun job =>
    if job.required_skills = [] then
      { job with required_skills := extract job.description }
    else job)

/-- Python str.split() with no argument: split on whitespace runs and drop
empty pieces. -/
def pySplitWsAux : List Char → List Char → List String
  | [], acc => if acc = [] then [] else [⟨acc.reverse⟩]
  | c :: rest, acc =>
    if pyIsWs c then
      if acc = [] then pySplitWsAux rest []
      else ⟨acc.reverse⟩ :: pySplitWsAux rest []
    else pySplitWsAux rest (c :: acc)

/-- Python str.split() on a String. -/
def pySplitWs (s : String) : List String := pySplitWsAux s.data []

/-- Embedding of the role-matching test of _group_jobs_by_role: some word
of the lowercased role with length above 3 occurs in the lowercased job
title. -/
def assignedRole (job_roles : List String) (job : JobPosting) :
    Option String :=
  job_roles.find? (fun role =>
    (pySplitWs ⟨pyLower role.data⟩).any (fun kw =>
      decide (3 < kw.data.length) && substrB kw ⟨pyLower job.title.data⟩))

/-- Embedding of jobs_by_role.get(role, []): the postings assigned to the
given role (each posting goes to the first matching role only). -/
def jobsForRole (job_roles : List String) (job_postings : List JobPosting)
    (role : String) : List JobPosting :=
  job_postings.filter (fun job => assignedRole job_roles job == some role)

/-- The priority ranking dict of _analyze_role's top-skill sort. -/
def priorityRank (p : String) : Nat :=
  if p = "high" then 0 else if p = "medium" then 1 else 2

/-- Embedding of SkillGapAnalyzer._analyze_role. -/
def analyze_role (categorize : String → String) (role : String)
    (resume_skills : List String) (role_jobs : List JobPosting) :
    RoleSkillAnalysis :=
  let all_required_skills :=
    role_jobs.foldl (fun acc j => acc ++ j.required_skills) []
  let skill_frequency := buildCounter all_required_skills
  let unique_required := (all_required_skills.foldl (fun st s =>
      if (normalize_skill s) ∈ st.2 then st
      else (st.1 ++ [s], (normalize_skill s) :: st.2))
    (([], []) : List String × List String)).1
  let mm := find_matching_skills resume_skills unique_required
  let match_pct := calculate_match_percentage mm.1 unique_required.length
  let skill_gaps := (prioritize_missing_skills mm.2 skill_frequency
      role_jobs.length).map (fun p =>
    { skill_name := p.1
      category := categorize p.1
      found_in_jobs_count := freqGet skill_frequency (normalize_skill p.1)
      priority := p.2.1
      learning_resources := []
      estimated_learning_time := estimate_learning_time p.1 p.2.1 : SkillGap })
  let emerging := ((mostCommon skill_frequency 5).filter (fun p =>
      decide ((role_jobs.length : ℚ) * (2/5) ≤ (p.2 : ℚ)))).map (fun p => p.1)
  let avg_skills_per_job : ℚ := if role_jobs = [] then 0
    else ((role_jobs.foldl (fun acc j => acc + j.required_skills.length) 0
      : Nat) : ℚ) / role_jobs.length
  let top_skills := ((skill_gaps.mergeSort (fun g1 g2 =>
      decide (priorityRank g1.priority < priorityRank g2.priority) ||
      (priorityRank g1.priority == priorityRank g2.priority &&
        decide (g2.found_in_jobs_count ≤ g1.found_in_jobs_count)))).take 5).map
    (fun g => g.skill_name)
  { job_role := role
    jobs_analyzed := role_jobs.length
    matched_skills := mm.1
    missing_skills := skill_gaps
    emerging_skills := emerging
    match_percentage := pyRound1 match_pct
    skill_coverage_score := calculate_skill_coverage_score match_pct
      resume_skills.length avg_skills_per_job
    top_skills_to_learn := top_skills
    estimated_readiness :=
      if (80:ℚ) ≤ match_pct then "Ready now"
      else if (60:ℚ) ≤ match_pct then "1-2 months"
      else if (40:ℚ) ≤ match_pct then "3-4 months"
      else "6+ months" }

/-- Embedding of SkillGapAnalyzer._find_common_gaps. -/
def find_common_gaps (role_analyses : List RoleSkillAnalysis) : List String :=
  if role_analyses = [] then []
  else
    match role_analyses.map (fun a =>
      a.missing_skills.map (fun g => normalize_skill g.skill_name)) with
    | [] => []
    | m0 :: rest =>
      let common := rest.foldl
        (fun acc m => acc.filter (fun s => decide (s ∈ m))) m0
      (role_analyses.foldl (fun acc a =>
        a.missing_skills.foldl (fun acc g =>
          if normalize_skill g.skill_name ∈ common then
            if g.skill_name ∈ acc then acc else acc ++ [g.skill_name]
          else acc) acc) []).take 10

/-- Embedding of SkillGapAnalyzer._identify_quick_wins.  CPython's
list(set(...)) has an unspecified iteration order; it is modelled as
first-occurrence deduplication, and no claim depends on this order. -/
def analyzer_quick_wins (role_analyses : List RoleSkillAnalysis) :
    List String :=
  let all_missing := role_analyses.foldl (fun acc a =>
    acc ++ a.missing_skills.map (fun g => g.skill_name)) []
  let skill_frequency := role_analyses.foldl (fun acc a =>
    a.missing_skills.foldl (fun acc g =>
      counterAdd acc (normalize_skill g.skill_name) g.found_in_jobs_count)
      acc) []
  (dedupKeepFirst (identify_quick_wins all_missing skill_frequency)).take 8

/-- Embedding of SkillGapAnalyzer._identify_long_term_goals, with the same
set-order modelling note as analyzer_quick_wins. -/
def analyzer_long_term_goals (role_analyses : List RoleSkillAnalysis) :
    List String :=
  let all_missing := role_analyses.foldl (fun acc a =>
    acc ++ a.missing_skills.map (fun g => g.skill_name)) []
  let skill_frequency := role_analyses.foldl (fun acc a =>
    a.missing_skills.foldl (fun acc g =>
      counterAdd acc (normalize_skill g.skill_name) g.found_in_jobs_count)
      acc) []
  (dedupKeepFirst (identify_long_term_goals all_missing skill_frequency)).take 8

/-- Dict upsert mirroring Python insertion-order semantics: an existing key
keeps its position and takes the new value, a new key is appended. -/
def dictUpsert (m : List (String × String)) (k v : String) :
    List (String × String) :=
  if m.any (fun p => p.1 == k) then
    m.map (fun p => if p.1 == k then (k, v) else p)
  else m ++ [(k, v)]

/-- Embedding of SkillGapAnalyzer._identify_niche_skills. -/
def identify_niche_skills (role_analyses : List RoleSkillAnalysis) :
    List String :=
  if role_analyses.length < 2 then []
  else
    let missing_by_role := role_analyses.map (fun a =>
      a.missing_skills.foldl (fun acc g =>
        dictUpsert acc (normalize_skill g.skill_name) g.skill_name) [])
    let st := missing_by_role.foldl (fun st d =>
      d.foldl (fun st p =>
        (counterAdd st.1 p.1 1,
         if st.2.any (fun q => q.1 == p.1) then st.2 else st.2 ++ [p]))
      st) (([], []) : List (String × Nat) × List (String × String))
    (((st.1.filter (fun p => p.2 == 1)).map (fun p =>
      match st.2.find? (fun q => q.1 == p.1) with
      | some q => q.2
      | none => "")).take 10)

/-- Embedding of SkillGapAnalyzer._generate_action_plans. -/
def generate_action_plans (common_gaps quick_wins long_term : List String) :
    List String × List String × List String × List String :=
  let immediate := (quick_wins.take 3).map
      (fun s => "Start learning " ++ s ++ " (quick win)") ++
    (match common_gaps with
     | [] => []
     | g :: _ => ["Research " ++ g ++ " fundamentals"]) ++
    ["Update resume with recent projects highlighting existing skills"]
  let one_month := ((quick_wins.drop 3).take 3).map
      (fun s => "Complete " ++ s ++ " tutorial/certification") ++
    (if 1 < common_gaps.length then
      ["Begin structured course on " ++ common_gaps.getD 1 ""] else []) ++
    ["Build small project using newly learned skills"]
  let three_month := (common_gaps.take 2).map
      (fun s => "Achieve proficiency in " ++ s) ++
    (match long_term with
     | [] => []
     | g :: _ => ["Start learning " ++ g ++ " (long-term goal)"]) ++
    ["Contribute to open-source projects showcasing new skills",
     "Apply to 2-3 stretch roles to gauge market response"]
  let six_month := (long_term.take 2).map
      (fun s => "Develop intermediate skills in " ++ s) ++
    ["Complete comprehensive portfolio project",
     "Network with professionals in target roles",
     "Apply to target positions with confidence"]
  (immediate, one_month, three_month, six_month)

/-- Embedding of SkillGapAnalyzer.analyze, with datetime.now()'s formatted
date supplied as the today parameter. -/
def analyze (extract : String → List String) (categorize : String → String)
    (today : String) (resume_skills : List String)
    (job_postings : List JobPosting) (job_roles : List String) :
    SkillGapAnalysis :=
  let postings := extract_job_skills extract job_postings
  let role_analyses := job_roles.foldl (fun acc role =>
    if jobsForRole job_roles postings role ≠ [] then
      acc ++ [analyze_role categorize role resume_skills
        (jobsForRole job_roles postings role)]
    else acc) []
  let common_gaps := find_common_gaps role_analyses
  let quick_wins := analyzer_quick_wins role_analyses
  let long_term := analyzer_long_term_goals role_analyses
  let all_job_skills := postings.foldl (fun acc j => acc ++ j.required_skills) []
  let trends := analyze_skill_trends all_job_skills resume_skills
  let plans := generate_action_plans common_gaps quick_wins long_term
  let avg_match : ℚ := if role_analyses = [] then 0
    else (role_analyses.foldl (fun acc r => acc + r.match_percentage) 0) /
      (role_analyses.length : ℚ)
  { role_analyses := role_analyses
    common_gaps := common_gaps
    quick_wins := quick_wins
    long_term_goals := long_term
    niche_skills := identify_niche_skills role_analyses
    trending_skills := trends.1
    declining_skills := trends.2
    immediate_actions := plans.1
    one_month_plan := plans.2.1
    three_month_plan := plans.2.2.1
    six_month_plan := plans.2.2.2
    overall_market_readiness := pyRound1 avg_match
    total_jobs_analyzed := job_postings.length
    analysis_date := today }

/-! ### Claim C9: required_skills is populated at most once -/

/-- The posting with exactly its required_skills field replaced by the
extractor's output for its description. -/
def populateSkills (extract : String → List String) (job : JobPosting) :
    JobPosting :=
  { job with required_skills := extract job.description }

/-- Claim C9: skill extraction maps each posting as follows: a posting with
non-empty required_skills is left entirely unchanged (treated as cached); a
posting with empty required_skills gets exactly the extractor's output for
its description and no other field of any posting is modified. -/
theorem C9_extract_populates_once (extract : String → List String)
    (job_postings : List JobPosting) (i : Nat) (h : i < job_postings.length)
    (h2 : i < (extract_job_skills extract job_postings).length) :
    ((job_postings.get ⟨i, h⟩).required_skills ≠ [] →
      (extract_job_skills extract job_postings).get ⟨i, h2⟩ =
        job_postings.get ⟨i, h⟩) ∧
    ((job_postings.get ⟨i, h⟩).required_skills = [] →
      (extract_job_skills extract job_postings).get ⟨i, h2⟩ =
        populateSkills extract (job_postings.get ⟨i, h⟩)) ∧
    ((extract_job_skills extract job_postings).get ⟨i, h2⟩).title =
      (job_postings.get ⟨i, h⟩).title ∧
    ((extract_job_skills extract job_postings).get ⟨i, h2⟩).company =
      (job_postings.get ⟨i, h⟩).company ∧
    ((extract_job_skills extract job_postings).get ⟨i, h2⟩).location =
      (job_postings.get ⟨i, h⟩).location ∧
    ((extract_job_skills extract job_postings).get ⟨i, h2⟩).description =
      (job_postings.get ⟨i, h⟩).description ∧
    ((extract_job_skills extract job_postings).get ⟨i, h2⟩).url =
      (job_postings.get ⟨i, h⟩).url ∧
    ((extract_job_skills extract job_postings).get ⟨i, h2⟩).salary =
      (job_postings.get ⟨i, h⟩).salary ∧
    ((extract_job_skills extract job_postings).get ⟨i, h2⟩).posted_date =
      (job_postings.get ⟨i, h⟩).posted_date ∧
    ((extract_job_skills extract job_postings).get ⟨i, h2⟩).source =
      (job_postings.get ⟨i, h⟩).source := by
  have hget : (extract_job_skills extract job_postings).get ⟨i, h2⟩ =
      (if (job_postings.get ⟨i, h⟩).required_skills = [] then
        populateSkills extract (job_postings.get ⟨i, h⟩)
      else job_postings.get ⟨i, h⟩) := by
    simp [extract_job_skills, populateSkills, List.get_eq_getElem,
      List.getElem_map]
  refine ⟨fun hne => by rw [hget, if_neg hne],
    fun he => by rw [hget, if_pos he], ?_, ?_, ?_, ?_, ?_, ?_, ?_, ?_⟩ <;>
    (rw [hget]; split_ifs <;> rfl)

/-- Sample posting with already-populated (cached) required_skills. -/
def samplePostingCached : JobPosting :=
  { title := "Data Engineer", company := "Acme", location := "NYC",
    description := "Python and SQL", required_skills := ["Python"],
    url := none, salary := none, posted_date := none, source := "adzuna" }

/-- Sample posting with empty required_skills. -/
def samplePostingFresh : JobPosting :=
  { samplePostingCached with required_skills := [] }

/-- Witness for C9: the populate-once theorem applied at a concrete
one-posting list whose required_skills starts empty. -/
theorem C9_extract_witness :
    (extract_job_skills (fun _ => ["Python", "SQL"]) [samplePostingFresh]).get
      ⟨0, by decide⟩ =
    populateSkills (fun _ => ["Python", "SQL"]) samplePostingFresh :=
  (C9_extract_populates_once (fun _ => ["Python", "SQL"]) [samplePostingFresh]
    0 (by decide) (by decide)).2.1 (by decide)

/-! ### Claim C7: overall market readiness -/

theorem pyRound1_zero : pyRound1 0 = 0 := by
  unfold pyRound1 roundHalfEven
  norm_num

theorem analyze_role_job_role (categorize : String → String) (role : String)
    (resume_skills : List String) (role_jobs : List JobPosting) :
    (analyze_role categorize role resume_skills role_jobs).job_role = role :=
  rfl

theorem roleAnalyses_assigned (categorize : String → String)
    (resume_skills : List String) (postings : List JobPosting)
    (job_roles : List String) (roles_iter : List String) :
    ∀ (acc : List RoleSkillAnalysis),
      (∀ ra ∈ acc, jobsForRole job_roles postings ra.job_role ≠ []) →
      ∀ ra ∈ roles_iter.foldl (fun acc role =>
          if jobsForRole job_roles postings role ≠ [] then
            acc ++ [analyze_role categorize role resume_skills
              (jobsForRole job_roles postings role)]
          else acc) acc,
        jobsForRole job_roles postings ra.job_role ≠ [] := by
  induction roles_iter with
  | nil => intro acc hacc; exact hacc
  | cons r t ih =>
    intro acc hacc
    rw [List.foldl_cons]
    by_cases hr : jobsForRole job_roles postings r ≠ []
    · rw [if_pos hr]
      apply ih
      intro ra hra
      rcases List.mem_append.mp hra with hm | hm
      · exact hacc ra hm
      · rw [List.mem_singleton.mp hm, analyze_role_job_role]
        exact hr
    · rw [if_neg hr]
      exact ih acc hacc

theorem roleAnalyses_empty (categorize : String → String)
    (resume_skills : List String) (postings : List JobPosting)
    (job_roles : List String) (roles_iter : List String)
    (hall : ∀ role ∈ roles_iter, jobsForRole job_roles postings role = []) :
    ∀ (acc : List RoleSkillAnalysis),
      roles_iter.foldl (fun acc role =>
        if jobsForRole job_roles postings role ≠ [] then
          acc ++ [analyze_role categorize role resume_skills
            (jobsForRole job_roles postings role)]
        else acc) acc = acc := by
  induction roles_iter with
  | nil => intro acc; rfl
  | cons r t ih =>
    intro acc
    rw [List.foldl_cons, if_neg (by
      simpa using hall r (List.mem_cons_self r t))]
    exact ih (fun role hrole => hall role (List.mem_cons_of_mem r hrole)) acc

/-- Claim C7: overall_market_readiness is the one-decimal rounding of the
arithmetic mean of match_percentage over the role analyses present (0 when
none is present); every present role analysis has at least one assigned
posting; and when no role has any assigned posting, role_analyses is empty
and overall_market_readiness is 0 (the total function never raises). -/
theorem C7_overall_readiness (extract : String → List String)
    (categorize : String → String) (today : String)
    (resume_skills : List String) (job_postings : List JobPosting)
    (job_roles : List String) :
    (analyze extract categorize today resume_skills job_postings
        job_roles).overall_market_readiness =
      pyRound1 (if (analyze extract categorize today resume_skills
          job_postings job_roles).role_analyses = [] then 0
        else ((analyze extract categorize today resume_skills job_postings
            job_roles).role_analyses.foldl
            (fun acc r => acc + r.match_percentage) 0) /
          (((analyze extract categorize today resume_skills job_postings
            job_roles).role_analyses.length : ℚ))) ∧
    (∀ ra ∈ (analyze extract categorize today resume_skills job_postings
        job_roles).role_analyses,
      jobsForRole job_roles (extract_job_skills extract job_postings)
        ra.job_role ≠ []) ∧
    ((∀ role ∈ job_roles,
        jobsForRole job_roles (extract_job_skills extract job_postings) role
          = []) →
      (analyze extract categorize today resume_skills job_postings
        job_roles).role_analyses = [] ∧
      (analyze extract categorize today resume_skills job_postings
        job_roles).overall_market_readiness = 0) := by
  have hmain : (analyze extract categorize today resume_skills job_postings
      job_roles).overall_market_readiness =
      pyRound1 (if (analyze extract categorize today resume_skills
          job_postings job_roles).role_analyses = [] then 0
        else ((analyze extract categorize today resume_skills job_postings
            job_roles).role_analyses.foldl
            (fun acc r => acc + r.match_percentage) 0) /
          (((analyze extract categorize today resume_skills job_postings
            job_roles).role_analyses.length : ℚ))) := rfl
  refine ⟨hmain, ?_, ?_⟩
  · exact roleAnalyses_assigned categorize resume_skills
      (extract_job_skills extract job_postings) job_roles job_roles []
      (fun ra hra => (List.not_mem_nil ra hra).elim)
  · intro hall
    have hempty : (analyze extract categorize today resume_skills
        job_postings job_roles).role_analyses = [] :=
      roleAnalyses_empty categorize resume_skills
        (extract_job_skills extract job_postings) job_roles job_roles hall []
    refine ⟨hempty, ?_⟩
    rw [hmain, hempty, if_pos rfl, pyRound1_zero]

/-- Witness for C7: analyze applied with no postings at all yields an empty
role_analyses list and overall market readiness 0. -/
theorem C7_overall_readiness_witness :
    (analyze (fun _ => []) (fun _ => "") "2024-01-01" ["Python"] []
      ["Data Scientist"]).role_analyses = [] ∧
    (analyze (fun _ => []) (fun _ => "") "2024-01-01" ["Python"] []
      ["Data Scientist"]).overall_market_readiness = 0 :=
  (C7_overall_readiness (fun _ => []) (fun _ => "") "2024-01-01" ["Python"]
    [] ["Data Scientist"]).2.2 (by decide)

/-! ### Claim C6: common gaps across roles -/

theorem filter_foldl_mem (ms : List (List String)) :
    ∀ (init : List String) (x : String),
      (x ∈ ms.foldl (fun acc m => acc.filter (fun s => decide (s ∈ m))) init)
      ↔ (x ∈ init ∧ ∀ m ∈ ms, x ∈ m) := by
  induction ms with
  | nil => intro init x; simp
  | cons m ms ih =>
    intro init x
    rw [List.foldl_cons, ih]
    simp only [List.mem_filter, decide_eq_true_eq, List.mem_cons]
    constructor
    · rintro ⟨⟨hi, hm⟩, hall⟩
      exact ⟨hi, fun m2 hm2 => hm2.elim (fun e => e ▸ hm) (hall m2)⟩
    · rintro ⟨hi, hall⟩
      exact ⟨⟨hi, hall m (Or.inl rfl)⟩, fun m2 hm2 => hall m2 (Or.inr hm2)⟩

theorem flatMap_cons_eq {α γ : Type} (f : α → List γ) (a : α) (t : List α) :
    (a :: t).flatMap f = f a ++ t.flatMap f := rfl

theorem foldl_append_eq_bind {α γ : Type} (f : α → List γ) :
    ∀ (l : List α) (acc : List γ),
      l.foldl (fun acc a => acc ++ f a) acc = acc ++ l.flatMap f := by
  intro l
  induction l with
  | nil => intro acc; simp
  | cons a t ih =>
    intro acc
    rw [List.foldl_cons, ih, flatMap_cons_eq, List.append_assoc]

theorem collect_inner_eq (common : List String) :
    ∀ (gaps : List SkillGap) (acc : List String),
      gaps.foldl (fun acc g =>
        if normalize_skill g.skill_name ∈ common then
          if g.skill_name ∈ acc then acc else acc ++ [g.skill_name]
        else acc) acc =
      ((gaps.map (fun g => g.skill_name)).filter
        (fun s => decide (normalize_skill s ∈ common))).foldl
        (fun acc s => if s ∈ acc then acc else acc ++ [s]) acc := by
  intro gaps
  induction gaps with
  | nil => intro acc; rfl
  | cons g t ih =>
    intro acc
    rw [List.foldl_cons, List.map_cons]
    by_cases hp : normalize_skill g.skill_name ∈ common
    · rw [if_pos hp, List.filter_cons_of_pos (by simpa using hp),
        List.foldl_cons]
      exact ih _
    · rw [if_neg hp, List.filter_cons_of_neg (by simpa using hp)]
      exact ih acc

theorem collect_eq (common : List String) (ras : List RoleSkillAnalysis) :
    ∀ (acc : List String),
      ras.foldl (fun acc a =>
        a.missing_skills.foldl (fun acc g =>
          if normalize_skill g.skill_name ∈ common then
            if g.skill_name ∈ acc then acc else acc ++ [g.skill_name]
          else acc) acc) acc =
      ((ras.flatMap (fun a =>
          a.missing_skills.map (fun g => g.skill_name))).filter
        (fun s => decide (normalize_skill s ∈ common))).foldl
        (fun acc s => if s ∈ acc then acc else acc ++ [s]) acc := by
  induction ras with
  | nil => intro acc; rfl
  | cons a t ih =>
    intro acc
    rw [List.foldl_cons, ih, collect_inner_eq, flatMap_cons_eq,
      List.filter_append, List.foldl_append]

/-- Claim C6 (amended): for every non-empty list of role analyses,
common_gaps lists, in first-encountered order and capped to 10 entries, the
original spellings of missing skills whose normalized key is missing in
every role, deduplicated by exact string rather than by normalized key, so
one normalized key can appear under several casings (see
C6_common_gaps_cex); in particular roles that all miss "Docker" yield a
list containing "Docker". -/
theorem C6_common_gaps_amended (role_analyses : List RoleSkillAnalysis)
    (hne : role_analyses ≠ []) :
    find_common_gaps role_analyses =
      (dedupKeepFirst ((role_analyses.foldl (fun acc a =>
          acc ++ a.missing_skills.map (fun g => g.skill_name)) []).filter
        (fun s => role_analyses.all (fun a => decide (normalize_skill s ∈
          a.missing_skills.map (fun g => normalize_skill g.skill_name)))))).take
        10 := by
  obtain ⟨a0, rest, rfl⟩ : ∃ a0 rest, role_analyses = a0 :: rest := by
    cases role_analyses with
    | nil => exact absurd rfl hne
    | cons a0 rest => exact ⟨a0, rest, rfl⟩
  have hfc : find_common_gaps (a0 :: rest) =
      ((a0 :: rest).foldl (fun acc a =>
        a.missing_skills.foldl (fun acc g =>
          if normalize_skill g.skill_name ∈
            (rest.map (fun a =>
              a.missing_skills.map (fun g => normalize_skill g.skill_name))).foldl
              (fun acc m => acc.filter (fun s => decide (s ∈ m)))
              (a0.missing_skills.map (fun g => normalize_skill g.skill_name))
          then if g.skill_name ∈ acc then acc else acc ++ [g.skill_name]
          else acc) acc) []).take 10 := rfl
  rw [hfc, collect_eq, foldl_append_eq_bind, List.nil_append]
  show _ =
    ((((a0 :: rest).flatMap (fun a =>
        a.missing_skills.map (fun g => g.skill_name))).filter
      (fun s => (a0 :: rest).all (fun a => decide (normalize_skill s ∈
        a.missing_skills.map (fun g => normalize_skill g.skill_name))))).foldl
      (fun acc s => if s ∈ acc then acc else acc ++ [s]) []).take 10
  have hpt : ∀ x ∈ ((a0 :: rest).flatMap (fun a =>
      a.missing_skills.map (fun g => g.skill_name))),
      (decide (normalize_skill x ∈
        (rest.map (fun a =>
          a.missing_skills.map (fun g => normalize_skill g.skill_name))).foldl
          (fun acc m => acc.filter (fun s => decide (s ∈ m)))
          (a0.missing_skills.map (fun g => normalize_skill g.skill_name)))) =
      ((a0 :: rest).all (fun a => decide (normalize_skill x ∈
        a.missing_skills.map (fun g => normalize_skill g.skill_name)))) := by
    intro x _
    have hmem : (normalize_skill x ∈
        (rest.map (fun a =>
          a.missing_skills.map (fun g => normalize_skill g.skill_name))).foldl
          (fun acc m => acc.filter (fun s => decide (s ∈ m)))
          (a0.missing_skills.map (fun g => normalize_skill g.skill_name))) ↔
        ∀ a ∈ a0 :: rest, normalize_skill x ∈
          a.missing_skills.map (fun g => normalize_skill g.skill_name) := by
      rw [filter_foldl_mem]
      constructor
      · rintro ⟨h0, hrest⟩ a ha
        rcases List.mem_cons.mp ha with e | ha2
        · exact e ▸ h0
        · exact hrest _ (List.mem_map_of_mem _ ha2)
      · intro hall
        refine ⟨hall a0 (List.mem_cons_self _ _), ?_⟩
        intro m hm
        rcases List.mem_map.mp hm with ⟨a, ha, rfl⟩
        exact hall a (List.mem_cons_of_mem _ ha)
    by_cases hxm : normalize_skill x ∈
        (rest.map (fun a =>
          a.missing_skills.map (fun g => normalize_skill g.skill_name))).foldl
          (fun acc m => acc.filter (fun s => decide (s ∈ m)))
          (a0.missing_skills.map (fun g => normalize_skill g.skill_name))
    · rw [decide_eq_true hxm, eq_comm, List.all_eq_true]
      intro a ha
      exact decide_eq_true (hmem.mp hxm a ha)
    · rw [decide_eq_false hxm]
      cases hall : (a0 :: rest).all (fun a => decide (normalize_skill x ∈
          a.missing_skills.map (fun g => normalize_skill g.skill_name))) with
      | false => rfl
      | true =>
        exact absurd (hmem.mpr (fun a ha => of_decide_eq_true
          (List.all_eq_true.mp hall a ha))) hxm
  rw [List.filter_congr hpt]

/-- A SkillGap with only the name populated, for concrete examples. -/
def gapNamed (s : String) : SkillGap :=
  { skill_name := s, category := "", found_in_jobs_count := 0,
    priority := "low", learning_resources := [],
    estimated_learning_time := "" }

/-- A role analysis holding only missing skills, for concrete examples. -/
def raWithMissing (role : String) (gaps : List String) : RoleSkillAnalysis :=
  { job_role := role, jobs_analyzed := 1, matched_skills := [],
    missing_skills := gaps.map gapNamed, emerging_skills := [],
    match_percentage := 0, skill_coverage_score := 0,
    top_skills_to_learn := [], estimated_readiness := "6+ months" }

/-- Counterexample to claim C6 as stated: deduplication of the rendered
list is by exact string, not by normalized key, so two casings of the same
common gap both appear and the "one entry per normalized key with
first-encountered casing" reading fails. -/
theorem C6_common_gaps_cex :
    find_common_gaps [raWithMissing "Backend Engineer" ["Docker"],
      raWithMissing "Data Engineer" ["docker"]] = ["Docker", "docker"] ∧
    normalize_skill "Docker" = normalize_skill "docker" := by
  refine ⟨by decide, by decide⟩

/-- Three roles each independently missing Docker, for the C6 witness. -/
def dockerRoles : List RoleSkillAnalysis :=
  [raWithMissing "Backend Engineer" ["Docker"],
   raWithMissing "Platform Engineer" ["Docker"],
   raWithMissing "Data Engineer" ["Docker"]]

/-- Witness for C6: the amended characterization applied to three roles
each missing "Docker", whose common gaps indeed contain "Docker". -/
theorem C6_common_gaps_witness :
    find_common_gaps dockerRoles =
      (dedupKeepFirst ((dockerRoles.foldl (fun acc a =>
          acc ++ a.missing_skills.map (fun g => g.skill_name)) []).filter
        (fun s => dockerRoles.all (fun a => decide (normalize_skill s ∈
          a.missing_skills.map (fun g => normalize_skill g.skill_name)))))).take
        10 ∧
    "Docker" ∈ find_common_gaps dockerRoles :=
  ⟨C6_common_gaps_amended dockerRoles (by decide), by decide⟩

/-! ### EnhancedResumeParser: section segmentation
(enhanced_resume_parser.py lines 15-22, 52-57, 195-219) -/

/-- A layout-extracted line: text with style metadata. -/
structure Line where
  text : String
  font_size : ℚ
  bold : Bool

/-- The SECTION_KEYWORDS table, in Python dict insertion order. -/
def SECTION_KEYWORDS : List (String × List String) := [
  ("experience",
    ["professional experience", "work experience", "experience"]),
  ("education", ["education", "academic background"]),
  ("skills", ["skills", "technical skills", "core competencies"]),
  ("projects", ["academic projects", "projects"]),
  ("summary", ["summary", "professional summary", "objective"]),
  ("certifications", ["certifications", "certificates", "licenses"])]

/-- Embedding of classify_section: the first section tag one of whose
accepted phrases equals or occurs in the lowercased stripped text. -/
def classify_section (text : String) : Option String :=
  (SECTION_KEYWORDS.find? (fun p => p.2.any (fun kw =>
    kw == pyStrip ⟨pyLower text.data⟩ ||
    substrB kw (pyStrip ⟨pyLower text.data⟩)))).map (fun p => p.1)

/-- Python dict assignment on an association list: an existing key keeps
its position and takes the new value, a new key is appended. -/
def sectionsUpsert (m : List (String × List String)) (k : String)
    (v : List String) : List (String × List String) :=
  if m.any (fun p => p.1 == k) then
    m.map (fun p => if p.1 == k then (k, v) else p)
  else m ++ [(k, v)]

/-- Dict lookup on the sections association list. -/
def sectionsLookup (m : List (String × List String)) (k : String) :
    Option (List String) :=
  (m.find? (fun p => p.1 == k)).map (fun p => p.2)

/-- One line of segment_by_sections: state is (sections, current_section,
current_content). -/
def segStep (st : List (String × List String) × Option String × List String)
    (line : Line) : List (String × List String) × Option String × List String :=
  if line.text = "" then st
  else
    match classify_section line.text with
    | some classified =>
      if line.bold || decide ((21:ℚ)/2 ≤ line.font_size) then
        match st.2.1 with
        | some cs =>
          if st.2.2 ≠ [] then
            (sectionsUpsert st.1 cs st.2.2, some classified, [])
          else (st.1, some classified, [])
        | none => (st.1, some classified, [])
      else
        match st.2.1 with
        | some _ => (st.1, st.2.1, st.2.2 ++ [line.text])
        | none => st
    | none =>
      match st.2.1 with
      | some _ => (st.1, st.2.1, st.2.2 ++ [line.text])
      | none => st

/-- Embedding of segment_by_sections: fold the lines and flush the final
section if it has content. -/
def segment_by_sections (lines : List Line) :
    List (String × List String) :=
  let st := lines.foldl segStep ([], none, [])
  match st.2.1 with
  | some cs => if st.2.2 ≠ [] then sectionsUpsert st.1 cs st.2.2 else st.1
  | none => st.1

/-! ### Claim C10: every section present in the mapping is non-empty -/

theorem mem_sectionsUpsert (m : List (String × List String)) (k : String)
    (v : List String) (p : String × List String)
    (hp : p ∈ sectionsUpsert m k v) : p ∈ m ∨ p.2 = v := by
  unfold sectionsUpsert at hp
  by_cases hany : m.any (fun p => p.1 == k)
  · rw [if_pos hany] at hp
    rcases List.mem_map.mp hp with ⟨q, hq, hpq⟩
    by_cases hqk : q.1 == k
    · rw [if_pos hqk] at hpq
      exact Or.inr (by rw [← hpq])
    · rw [if_neg hqk] at hpq
      exact Or.inl (hpq ▸ hq)
  · rw [if_neg hany] at hp
    rcases List.mem_append.mp hp with h | h
    · exact Or.inl h
    · rw [List.mem_singleton.mp h]
      exact Or.inr rfl

/-- Invariant: every stored section value is non-empty. -/
def segInv (st : List (String × List String) × Option String × List String) :
    Prop :=
  ∀ p ∈ st.1, p.2 ≠ []

theorem segStep_inv (st : List (String × List String) × Option String ×
    List String) (line : Line) (h : segInv st) : segInv (segStep st line) := by
  unfold segStep
  by_cases ht : line.text = ""
  · rw [if_pos ht]; exact h
  · rw [if_neg ht]
    cases classify_section line.text with
    | some classified =>
      simp only
      by_cases hh : (line.bold || decide ((21:ℚ)/2 ≤ line.font_size)) = true
      · rw [if_pos hh]
        cases hcs : st.2.1 with
        | some cs =>
          simp only
          by_cases hc : st.2.2 ≠ []
          · rw [if_pos hc]
            intro p hp
            rcases mem_sectionsUpsert st.1 cs st.2.2 p hp with hm | he
            · exact h p hm
            · rw [he]; exact hc
          · rw [if_neg hc]; exact h
        | none => exact h
      · rw [if_neg hh]
        cases st.2.1 with
        | some cs => exact h
        | none => exact h
    | none =>
      cases st.2.1 with
      | some cs => exact h
      | none => exact h

theorem seg_foldl_inv (lines : List Line) :
    ∀ st, segInv st → segInv (lines.foldl segStep st) := by
  induction lines with
  | nil => intro st h; exact h
  | cons l t ih =>
    intro st h
    rw [List.foldl_cons]
    exact ih _ (segStep_inv st l h)

/-- Claim C10: every section present in the mapping returned by
segment_by_sections carries a non-empty list of content lines; a header
immediately followed by another header or by the end of input leaves the
mapping without an entry for its section. -/
theorem C10_sections_nonempty (lines : List Line) (tag : String)
    (content : List String)
    (h : sectionsLookup (segment_by_sections lines) tag = some content) :
    content ≠ [] := by
  have hres : segInv (segment_by_sections lines, none, []) := by
    show ∀ p ∈ segment_by_sections lines, p.2 ≠ []
    unfold segment_by_sections
    have hinv : segInv (lines.foldl segStep ([], none, [])) :=
      seg_foldl_inv lines ([], none, [])
        (fun p hp => (List.not_mem_nil p hp).elim)
    cases hcs : (lines.foldl segStep ([], none, [])).2.1 with
    | some cs =>
      simp only [hcs]
      by_cases hc : (lines.foldl segStep ([], none, [])).2.2 ≠ []
      · rw [if_pos hc]
        intro p hp
        rcases mem_sectionsUpsert _ cs _ p hp with hm | he
        · exact hinv p hm
        · rw [he]; exact hc
      · rw [if_neg hc]; exact hinv
    | none =>
      simp only [hcs]
      exact hinv
  unfold sectionsLookup at h
  cases hfind : (segment_by_sections lines).find? (fun p => p.1 == tag) with
  | none => rw [hfind] at h; cases h
  | some p =>
    rw [hfind] at h
    have hpm : p ∈ segment_by_sections lines := List.mem_of_find?_eq_some hfind
    have := hres p hpm
    have h2 : p.2 = content := by simpa using h
    exact h2 ▸ this

/-- Witness for C10: a concrete skills section with one content line. -/
theorem C10_sections_nonempty_witness :
    (["Python, SQL"] : List String) ≠ [] :=
  C10_sections_nonempty
    [⟨"Skills", 0, true⟩, ⟨"Python, SQL", 0, false⟩] "skills" ["Python, SQL"]
    (by decide)

/-! ### EnhancedResumeParser: experience parsing
(enhanced_resume_parser.py lines 60-93, 237-363)

The date regexes of the source are embedded as dedicated matchers: all
quantifiers in them meet only disjoint character classes, so greedy
matching is deterministic and the matchers below implement exactly the
leftmost match re.search finds. -/

/-- Embedding of the Experience model. -/
structure Experience where
  company : String
  position : String
  duration : String
  location : String
  description : List String
deriving DecidableEq

/-- Consume [A-Z][a-z]{2}. -/
def matchMonth : List Char → Option (List Char)
  | c1 :: c2 :: c3 :: rest =>
    if isUpperAZ c1 && isLowerAZ c2 && isLowerAZ c3 then some rest else none
  | _ => none

/-- Consume \s+ (one whitespace character, then the rest of the run). -/
def matchWsPlus : List Char → Option (List Char)
  | c :: rest => if pyIsWs c then some (rest.dropWhile pyIsWs) else none
  | [] => none

/-- Consume \d{4}. -/
def matchDigits4 : List Char → Option (List Char)
  | c1 :: c2 :: c3 :: c4 :: rest =>
    if isDigit09 c1 && isDigit09 c2 && isDigit09 c3 && isDigit09 c4 then
      some rest
    else none
  | _ => none

/-- Consume [A-Z][a-z]{2}\s+\d{4}. -/
def matchMonthYear (cs : List Char) : Option (List Char) :=
  ((matchMonth cs).bind matchWsPlus).bind matchDigits4

/-- Embedding of re.search(r'[A-Z][a-z]{2}\s+\d{4}', s) as a test. -/
def hasMonthYear : List Char → Bool
  | [] => false
  | c :: rest => (matchMonthYear (c :: rest)).isSome || hasMonthYear rest

/-- Consume the Variant-A entry pattern [A-Z][a-z]{2}\s+\d{4}\s*-\s* at the
head of the list. -/
def matchF1At (cs : List Char) : Option (List Char) :=
  (matchMonthYear cs).bind (fun r =>
    match r.dropWhile pyIsWs with
    | '-' :: r2 => some (r2.dropWhile pyIsWs)
    | _ => none)

/-- Embedding of re.search(r'[A-Z][a-z]{2}\s+\d{4}\s*-\s*', s) as a test. -/
def hasF1Date : List Char → Bool
  | [] => false
  | c :: rest => (matchF1At (c :: rest)).isSome || hasF1Date rest

/-- Consume the literal Present. -/
def matchPresent : List Char → Option (List Char)
  | 'P' :: 'r' :: 'e' :: 's' :: 'e' :: 'n' :: 't' :: rest => some rest
  | _ => none

/-- Consume the full date-range group
[A-Z][a-z]{2}\s+\d{4}\s*[-dash]\s*(month year or Present), where the
accepted dash characters are a parameter ('-' alone for the Variant-A
pattern, '-' and the en dash for the Variant-B pattern). -/
def matchDateRangeAt (dashes : List Char) (cs : List Char) :
    Option (List Char) :=
  (matchMonthYear cs).bind (fun r1 =>
    match r1.dropWhile pyIsWs with
    | d :: r3 =>
      if d ∈ dashes then
        let r4 := r3.dropWhile pyIsWs
        match matchMonthYear r4 with
        | some r5 => some r5
        | none => matchPresent r4
      else none
    | [] => none)

/-- Leftmost search for the date-range group: returns (text before the
match, matched text, text after the match). -/
def searchDateRange (dashes : List Char) :
    List Char → Option (List Char × List Char × List Char)
  | [] => none
  | c :: rest =>
    match matchDateRangeAt dashes (c :: rest) with
    | some r =>
      some ([], (c :: rest).take ((c :: rest).length - r.length), r)
    | none =>
      match searchDateRange dashes rest with
      | some (pre, m, r) => some (c :: pre, m, r)
      | none => none

/-- Embedding of split_company_and_date. -/
def split_company_and_date (line : String) : String × String :=
  match searchDateRange ['-'] line.data with
  | some (pre, m, _) => (pyStrip ⟨pre⟩, ⟨m⟩)
  | none => (line, "")

/-- Consume [A-Z][a-z]+ (a capitalized word, greedy). -/
def matchCapWord : List Char → Option (List Char)
  | c1 :: c2 :: rest =>
    if isUpperAZ c1 && isLowerAZ c2 then some (rest.dropWhile isLowerAZ)
    else none
  | _ => none

/-- Test for ,\s*[A-Z]{2} at the end of the list. -/
def matchStateEnd : List Char → Bool
  | ',' :: r =>
    (match r.dropWhile pyIsWs with
     | [c1, c2] => isUpperAZ c1 && isUpperAZ c2
     | _ => false)
  | _ => false

/-- The star of the first location alternative: after the leading word,
either extend with \s+[A-Z][a-z]+ or finish with ,\s*[A-Z]{2}$ (the
boolean result is independent of the greedy exploration order). -/
def locStar : Nat → List Char → Bool
  | 0, _ => false
  | fuel + 1, cs =>
    (match matchWsPlus cs with
     | some r =>
       match matchCapWord r with
       | some r2 => locStar fuel r2
       | none => false
     | none => false) || matchStateEnd cs

/-- Test for the second location alternative [A-Z][a-z]+,\s*[A-Z][a-z]+$ at
the head of the list. -/
def locAlt2 (cs : List Char) : Bool :=
  match matchCapWord cs with
  | some (',' :: r2) =>
    (match matchCapWord (r2.dropWhile pyIsWs) with
     | some [] => true
     | _ => false)
  | _ => false

/-- Test whether the location pattern matches the whole list. -/
def locMatchAt (cs : List Char) : Bool :=
  (match matchCapWord cs with
   | some r => locStar (cs.length + 1) r
   | none => false) || locAlt2 cs

/-- Leftmost search for an end-anchored location: returns (text before the
match, matched text to end of string). -/
def searchLoc : List Char → Option (List Char × List Char)
  | [] => none
  | c :: rest =>
    if locMatchAt (c :: rest) then some ([], c :: rest)
    else
      match searchLoc rest with
      | some (pre, m) => some (c :: pre, m)
      | none => none

/-- Embedding of split_position_and_location. -/
def split_position_and_location (line : String) : String × String :=
  match searchLoc line.data with
  | some (pre, m) => (pyStrip ⟨pre⟩, ⟨m⟩)
  | none => (line, "")

/-- Embedding of normalize_text: Unicode dashes and quotes become their
ASCII equivalents. -/
def normalize_text (s : String) : String :=
  ⟨s.data.map (fun c =>
    if c = '–' || c = '—' then '-'
    else if c = '’' then '\''
    else if c = '“' || c = '”' then '"'
    else c)⟩

/-- Python line.startswith('•') or line.startswith('-'). -/
def startsBullet (s : String) : Bool :=
  match s.data with
  | c :: _ => c = '•' || c = '-'
  | [] => false

/-- Python line.startswith('•') alone (the Variant-A guards test only the
dot bullet, not the hyphen). -/
def startsDotBullet (s : String) : Bool :=
  match s.data with
  | c :: _ => c = '•'
  | [] => false

/-- Python line.lstrip('• -'). -/
def lstripBulletChars (s : String) : String :=
  ⟨s.data.dropWhile (fun c => c = '•' || c = ' ' || c = '-')⟩

/-- The shared bullet-collection loop of parse_experience_section:
consumes description lines until the break condition fires, joining
continuation lines onto the current bullet with a single space.  Returns
(descriptions, current_bullet, remaining lines starting at the break
line). -/
def collectBullets (breakCond : String → Bool) :
    Nat → List String → List String → String →
    List String × String × List String
  | 0, rest, descs, cur => (descs, cur, rest)
  | _ + 1, [], descs, cur => (descs, cur, [])
  | fuel + 1, l :: rest, descs, cur =>
    if breakCond (pyStrip l) then (descs, cur, l :: rest)
    else if startsBullet (pyStrip l) then
      collectBullets breakCond fuel rest
        (if cur ≠ "" then descs ++ [pyStrip cur] else descs)
        (pyStrip (lstripBulletChars (pyStrip l)))
    else if cur ≠ "" then
      collectBullets breakCond fuel rest descs (cur ++ " " ++ pyStrip l)
    else collectBullets breakCond fuel rest descs cur

/-- Python s.split(sep) for a one-character separator. -/
def splitOnChar (sep : Char) : List Char → List Char → List String
  | [], acc => [⟨acc.reverse⟩]
  | c :: rest, acc =>
    if c = sep then ⟨acc.reverse⟩ :: splitOnChar sep rest []
    else splitOnChar sep rest (c :: acc)

/-- Python line.split('|'). -/
def pySplitPipe (s : String) : List String := splitOnChar '|' s.data []

/-- The break condition of the Variant-B bullet loop: a new pipe+date line
or an empty line. -/
def breakB (dl : String) : Bool :=
  (dl.data.contains '|' && hasMonthYear dl.data) || dl = ""

/-- The break condition of the Variant-A bullet loop: a new company+date
line that does not start with the dot bullet (the source tests only
startswith('•') here, so a hyphen-prefixed date line does break). -/
def breakA (dl : String) : Bool :=
  hasF1Date dl.data && !startsDotBullet dl

/-- The Variant-A (Format 1) tail of one parse-loop iteration, entered
with the candidate line and the lines strictly after the current index;
returns the updated accumulator and the remaining lines. -/
def expFormat1Step (line : String) (tailRest : List String)
    (acc : List Experience) : List Experience × List String :=
  if hasF1Date line.data && !startsDotBullet line then
    let cd := split_company_and_date line
    let pl := (match tailRest with
      | [] => ("", "")
      | p :: _ => split_position_and_location (pyStrip p))
    let bs := collectBullets breakA (tailRest.length + 1)
      (tailRest.drop 1) [] ""
    let descs := if bs.2.1 ≠ "" then bs.1 ++ [pyStrip bs.2.1] else bs.1
    if cd.1 ≠ "" && pl.1 ≠ "" then
      (acc ++ [⟨cd.1, pl.1, normalize_text cd.2, pl.2, descs⟩], bs.2.2)
    else (acc, bs.2.2)
  else (acc, tailRest)

/-- The main loop of parse_experience_section over the remaining lines. -/
def expLoop : Nat → List String → List Experience → List Experience
  | 0, _, acc => acc
  | _ + 1, [], acc => acc
  | fuel + 1, l :: rest, acc =>
    let line := pyStrip l
    if line = "" || startsBullet line then expLoop fuel rest acc
    else if line.data.contains '|' && hasMonthYear line.data then
      let parts := pySplitPipe line
      if 2 ≤ parts.length then
        let position := pyStrip (parts.getD 0 "")
        let company := pyStrip (parts.getD 1 "")
        let ld : String × String :=
          if 3 ≤ parts.length then
            match searchDateRange ['-', '–'] (pyStrip (parts.getD 2 "")).data
              with
            | some (pre, m, _) => (pyStrip ⟨pre⟩, normalize_text ⟨m⟩)
            | none => (pyStrip (parts.getD 2 ""), "")
          else ("", "")
        let bs := collectBullets breakB (rest.length + 1) rest [] ""
        let descs := if bs.2.1 ≠ "" then bs.1 ++ [pyStrip bs.2.1] else bs.1
        if company ≠ "" && position ≠ "" then
          expLoop fuel bs.2.2
            (acc ++ [⟨company, position, ld.2, ld.1, descs⟩])
        else
          let st := expFormat1Step line (bs.2.2.drop 1) acc
          expLoop fuel st.2 st.1
      else
        let st := expFormat1Step line rest acc
        expLoop fuel st.2 st.1
    else
      let st := expFormat1Step line rest acc
      expLoop fuel st.2 st.1

/-- Embedding of parse_experience_section.  Every loop iteration strictly
advances the line index, so the fuel below always suffices. -/
def parse_experience_section (ls : List String) : List Experience :=
  expLoop (2 * ls.length + 4) ls []

/-- Claim C8: the Variant-B experience block with one pipe-delimited header
line, a bullet wrapped onto a continuation line, and a second bullet parses
to exactly one Experience with company Acme, position Engineer, the parsed
duration and location, and two description bullets, the first being the
bullet joined with its continuation line by a single space. -/
theorem C8_variantB_roundtrip :
    parse_experience_section
      ["Engineer | Acme | NYC  Jan 2020 - Present",
       "• Developed data pipelines",
       "across three regions",
       "• Led a team of four"] =
    [⟨"Acme", "Engineer", "Jan 2020 - Present", "NYC",
      ["Developed data pipelines across three regions",
       "Led a team of four"]⟩] := by
  decide

end Ascend
